import Mathlib

/-!
Verification of the Roomshare policy-gate hook runtime.

The stop-time Quality Gate orchestrator
(`src/.claude-backup-20260112-200802/hooks/stop_quality_gate.py`) is embedded
shallowly: Python strings are `List Char`, each subprocess invocation is
resolved by an environment oracle `Env.run`, and exceptions raised by
`subprocess.run` (`TimeoutExpired`, `FileNotFoundError`) are modelled with
`Except`, so an uncaught Python exception appears as `Except.error`.
-/

/-- Python `str`, modelled as a list of characters. -/
abbrev Str := List Char

/-- Conversion from a Lean string literal to the model's string type. -/
def str (s : String) : Str := s.data

/-- Python `str.startswith`. -/
def startswith : Str → Str → Bool
  | _, [] => true
  | [], _ :: _ => false
  | c :: cs, p :: ps => c == p && startswith cs ps

/-- Split a string at every occurrence of a separator character
(the model of `str.splitlines` for newline-separated text). -/
def splitChar (sep : Char) : Str → List Str
  | [] => [[]]
  | c :: cs =>
    let r := splitChar sep cs
    if c == sep then [] :: r
    else
      match r with
      | [] => [[c]]
      | l :: ls => (c :: l) :: ls

/-- Python `str.strip`: remove leading and trailing whitespace. -/
def strip (s : Str) : Str :=
  ((s.dropWhile Char.isWhitespace).reverse.dropWhile Char.isWhitespace).reverse

/-- Python `s.replace("\\", "/")` for the single-character pattern used by the
orchestrator. -/
def replaceBackslashes (s : Str) : Str :=
  s.map (fun c => if c == '\\' then '/' else c)

namespace QualityGate

/-- Outcome of one subprocess invocation, as decided by the environment:
either the process completed with an exit code and captured streams, or
`subprocess.run` raised (`TimeoutExpired` on timeout, `FileNotFoundError`
when the command cannot be started). -/
inductive RunOutcome where
  | completed (returncode : Int) (stdout : Str) (stderr : Str)
  | timedOut
  | startFailed
deriving DecidableEq

/-- The Python exceptions `subprocess.run` can raise in this script. -/
inductive PyExn where
  | timeoutExpired
  | fileNotFoundError
deriving DecidableEq

/-- The project state and subprocess behaviour the orchestrator observes:
which marker files exist, the parsed `package.json` scripts table
(`none` models a read or JSON-parse failure), and an oracle giving the
outcome of each subprocess command. -/
structure Env where
  packageJsonExists : Bool
  gitDirExists : Bool
  pnpmLockExists : Bool
  yarnLockExists : Bool
  bunLockbExists : Bool
  eslintBinExists : Bool
  pkgScripts : Option (List Str)
  run : List Str → RunOutcome

/-- `TEST_RELEVANT_PREFIXES` from the script: only run heavier checks if code
changed in these areas. -/
def TEST_RELEVANT_PREFIXES : List Str :=
  [str "src/", str "app/", str "pages/", str "server/", str "api/", str "prisma/"]

/-- `detect_pm`: choose the package manager by lockfile presence, in the
script's order, defaulting to npm. -/
def detect_pm (env : Env) : List Str :=
  if env.pnpmLockExists then [str "pnpm"]
  else if env.yarnLockExists then [str "yarn"]
  else if env.bunLockbExists then [str "bun"]
  else [str "npm"]

/-- `has_script`: false when `package.json` is absent or unreadable or not
valid JSON; otherwise membership in the scripts table. -/
def has_script (env : Env) (script : Str) : Bool :=
  if env.packageJsonExists = false then false
  else
    match env.pkgScripts with
    | none => false
    | some scripts => scripts.contains script

/-- `run(cmd, cwd, timeout)`: `subprocess.run` either returns a completed
process or raises; the model surfaces the raise as `Except.error`. -/
def runResult (o : RunOutcome) : Except PyExn (Int × Str × Str) :=
  match o with
  | .completed rc out err => .ok (rc, out, err)
  | .timedOut => .error .timeoutExpired
  | .startFailed => .error .fileNotFoundError

/-- The failure entries one stage appends to `errors`: on a nonzero exit code
the stage label, followed by the stripped stderr truncated to its first 2000
characters when nonempty. -/
def stageErrors (label : Str) (rc : Int) (stderr : Str) : List Str :=
  if rc ≠ 0 then
    if (strip stderr).isEmpty then [label]
    else [label, (strip stderr).take 2000]
  else []

/-- The changed-file list derived from `git diff --name-only` output:
stripped nonempty lines with backslashes normalised to slashes. -/
def parseChanged (stdout : Str) : List Str :=
  ((((splitChar '\n' stdout).map strip).filter (fun t => !t.isEmpty)).map
    replaceBackslashes)

/-- The `git diff --name-only` command used to detect changed files. -/
def GIT_DIFF_CMD : List Str := [str "git", str "diff", str "--name-only"]

/-- The lint block of `main`: run the declared lint script if present, else
fall back to eslint when the local binary exists, else do nothing. Returns
the error entries appended and the commands invoked. -/
def lintStage (env : Env) (pm_cmd : Str) :
    Except PyExn (List Str × List (List Str)) :=
  if has_script env (str "lint") then
    match runResult (env.run [pm_cmd, str "run", str "lint"]) with
    | .error e => .error e
    | .ok (rc, _, err) =>
        .ok (stageErrors (str "lint failed") rc err, [[pm_cmd, str "run", str "lint"]])
  else if env.eslintBinExists then
    match runResult (env.run [str "npx", str "eslint", str "."]) with
    | .error e => .error e
    | .ok (rc, _, err) =>
        .ok (stageErrors (str "eslint failed") rc err, [[str "npx", str "eslint", str "."]])
  else .ok ([], [])

/-- The command the typecheck block invokes: the declared script when present,
otherwise the direct `npx tsc --noEmit` fallback (always invoked). -/
def typecheckCmd (env : Env) (pm_cmd : Str) : List Str :=
  if has_script env (str "typecheck") then [pm_cmd, str "run", str "typecheck"]
  else [str "npx", str "tsc", str "--noEmit"]

/-- The typecheck block of `main`. -/
def typecheckStage (env : Env) (pm_cmd : Str) :
    Except PyExn (List Str × List (List Str)) :=
  match runResult (env.run (typecheckCmd env pm_cmd)) with
  | .error e => .error e
  | .ok (rc, _, err) =>
      .ok (stageErrors (str "typecheck failed") rc err, [typecheckCmd env pm_cmd])

/-- `should_test`: some changed path starts with a test-relevant core prefix. -/
def should_test (changed : List Str) : Bool :=
  changed.any (fun p => TEST_RELEVANT_PREFIXES.any (fun pre => startswith p pre))

/-- The test block of `main`: gated on core-path changes and a declared test
script. -/
def testStage (env : Env) (pm_cmd : Str) (changed : List Str) :
    Except PyExn (List Str × List (List Str)) :=
  if should_test changed && has_script env (str "test") then
    match runResult (env.run [pm_cmd, str "test"]) with
    | .error e => .error e
    | .ok (rc, _, err) =>
        .ok (stageErrors (str "tests failed") rc err, [[pm_cmd, str "test"]])
  else .ok ([], [])

/-- The lines the orchestrator prints to stderr when it blocks. -/
def renderStderr (errors : List Str) : List Str :=
  str "QUALITY GATE BLOCKED STOP:" ::
    (errors.map (fun e => str "- " ++ e)) ++ [str "\nFix the failures, then continue."]

/-- Result of a normal (exception-free) run of `main`: the process exit code,
the collected `errors` list, the stderr lines printed, and the trace of
subprocess commands invoked, in order. -/
structure MainResult where
  exitCode : Int
  errors : List Str
  stderrLines : List Str
  trace : List (List Str)
deriving DecidableEq

/-- The final aggregation of `main`: exit 2 with the blocked-stop report when
any error was collected, exit 0 silently otherwise. -/
def aggregate (errors : List Str) (trace : List (List Str)) : MainResult :=
  if errors.isEmpty then ⟨0, errors, [], trace⟩
  else ⟨2, errors, renderStderr errors, trace⟩

/-- `main` of `stop_quality_gate.py`: short-circuit when `package.json` or
`.git` is absent, diff for changed files, run the lint / typecheck / test
blocks in order, and aggregate. Every subprocess exception propagates
uncaught (`Except.error`), exactly as in the script, which has no
try/except around its `run` calls. -/
def main (env : Env) : Except PyExn MainResult :=
  if env.packageJsonExists = false then .ok ⟨0, [], [], []⟩
  else if env.gitDirExists = false then .ok ⟨0, [], [], []⟩
  else
    match runResult (env.run GIT_DIFF_CMD) with
    | .error e => .error e
    | .ok (_, out, _) =>
      let changed := parseChanged out
      if changed.isEmpty then .ok ⟨0, [], [], [GIT_DIFF_CMD]⟩
      else
        let pm_cmd := (detect_pm env).headD []
        match lintStage env pm_cmd with
        | .error e => .error e
        | .ok (lintErrs, lintTrace) =>
          match typecheckStage env pm_cmd with
          | .error e => .error e
          | .ok (tcErrs, tcTrace) =>
            match testStage env pm_cmd changed with
            | .error e => .error e
            | .ok (testErrs, testTrace) =>
              aggregate (lintErrs ++ tcErrs ++ testErrs)
                ([GIT_DIFF_CMD] ++ lintTrace ++ tcTrace ++ testTrace) |> .ok

/-- The changed-file list an environment yields, when its `git diff`
invocation completes. -/
def changedFiles (env : Env) : List Str :=
  match env.run GIT_DIFF_CMD with
  | .completed _ out _ => parseChanged out
  | _ => []

/-- The package-manager command `main` uses. -/
def pmOf (env : Env) : Str := (detect_pm env).headD []

/-- A subprocess oracle where every command completes successfully with empty
streams. -/
def quietRun : List Str → RunOutcome := fun _ => .completed 0 [] []

/-- A project without a `package.json`. -/
def envNoPkg : Env :=
  { packageJsonExists := false, gitDirExists := true, pnpmLockExists := false,
    yarnLockExists := false, bunLockbExists := false, eslintBinExists := false,
    pkgScripts := none, run := quietRun }

/-- A `package.json` project that is not under version control. -/
def envNoGit : Env :=
  { packageJsonExists := true, gitDirExists := false, pnpmLockExists := false,
    yarnLockExists := false, bunLockbExists := false, eslintBinExists := false,
    pkgScripts := some [], run := quietRun }

/-- A project where `git diff --name-only` reports no changed files. -/
def envNoChange : Env :=
  { packageJsonExists := true, gitDirExists := true, pnpmLockExists := false,
    yarnLockExists := false, bunLockbExists := false, eslintBinExists := false,
    pkgScripts := some [str "lint", str "typecheck", str "test"],
    run := quietRun }

/-- Subprocess oracle: one changed source file, and the lint subprocess
exceeds its timeout. -/
def envLintTimeoutRun : List Str → RunOutcome := fun cmd =>
  if cmd == GIT_DIFF_CMD then .completed 0 (str "src/a.ts\n") []
  else if cmd == [str "npm", str "run", str "lint"] then .timedOut
  else .completed 0 [] []

/-- A project whose declared lint script exceeds its 900-second timeout. -/
def envLintTimeout : Env :=
  { packageJsonExists := true, gitDirExists := true, pnpmLockExists := false,
    yarnLockExists := false, bunLockbExists := false, eslintBinExists := false,
    pkgScripts := some [str "lint"], run := envLintTimeoutRun }

/-- Subprocess oracle: the lint subprocess cannot be started. -/
def envLintStartFailRun : List Str → RunOutcome := fun cmd =>
  if cmd == GIT_DIFF_CMD then .completed 0 (str "src/a.ts\n") []
  else if cmd == [str "npm", str "run", str "lint"] then .startFailed
  else .completed 0 [] []

/-- A project whose lint subprocess cannot be started. -/
def envLintStartFail : Env :=
  { envLintTimeout with run := envLintStartFailRun }

/-- Subprocess oracle: the change-detection `git diff` itself times out. -/
def envGitTimeoutRun : List Str → RunOutcome := fun cmd =>
  if cmd == GIT_DIFF_CMD then .timedOut else .completed 0 [] []

/-- A project where determining applicability (the `git diff` call) raises. -/
def envGitTimeout : Env :=
  { envLintTimeout with run := envGitTimeoutRun }

/-- Subprocess oracle: no verification tooling; the fallback `npx tsc`
invocation exits nonzero because the type-checker is not installed. -/
def envNoToolsRun : List Str → RunOutcome := fun cmd =>
  if cmd == GIT_DIFF_CMD then .completed 0 (str "index.html\n") []
  else if cmd == [str "npx", str "tsc", str "--noEmit"] then
    .completed 1 [] (str "tsc: not found")
  else .completed 0 [] []

/-- A project with no declared scripts, no eslint binary and no installed
type-checker. -/
def envNoTools : Env :=
  { packageJsonExists := true, gitDirExists := true, pnpmLockExists := false,
    yarnLockExists := false, bunLockbExists := false, eslintBinExists := false,
    pkgScripts := some [], run := envNoToolsRun }

/-- Subprocess oracle: only `README.md` changed; every tool passes. -/
def envReadmeRun : List Str → RunOutcome := fun cmd =>
  if cmd == GIT_DIFF_CMD then .completed 0 (str "README.md\n") []
  else .completed 0 [] []

/-- A project with lint, typecheck and test scripts where only `README.md`
changed. -/
def envReadme : Env :=
  { packageJsonExists := true, gitDirExists := true, pnpmLockExists := false,
    yarnLockExists := false, bunLockbExists := false, eslintBinExists := false,
    pkgScripts := some [str "lint", str "typecheck", str "test"],
    run := envReadmeRun }

/-- Subprocess oracle: `src/api/handler.ts` changed; every tool passes. -/
def envHandlerRun : List Str → RunOutcome := fun cmd =>
  if cmd == GIT_DIFF_CMD then .completed 0 (str "src/api/handler.ts\n") []
  else .completed 0 [] []

/-- Same project as `envReadme`, but with `src/api/handler.ts` changed. -/
def envHandler : Env :=
  { envReadme with run := envHandlerRun }

/-- Subprocess oracle: the lint script exits 1 with stderr `3 problems`. -/
def envLintFailRun : List Str → RunOutcome := fun cmd =>
  if cmd == GIT_DIFF_CMD then .completed 0 (str "src/a.ts\n") []
  else if cmd == [str "npm", str "run", str "lint"] then .completed 1 [] (str "3 problems")
  else .completed 0 [] []

/-- A project whose lint stage fails with `3 problems` on stderr. -/
def envLintFail : Env :=
  { packageJsonExists := true, gitDirExists := true, pnpmLockExists := false,
    yarnLockExists := false, bunLockbExists := false, eslintBinExists := false,
    pkgScripts := some [str "lint"], run := envLintFailRun }

/-- Subprocess oracle: lint, typecheck and test all fail. -/
def envAllFailRun : List Str → RunOutcome := fun cmd =>
  if cmd == GIT_DIFF_CMD then .completed 0 (str "src/a.ts\n") []
  else if cmd == [str "npm", str "run", str "lint"] then .completed 1 [] (str "lint err")
  else if cmd == [str "npm", str "run", str "typecheck"] then .completed 1 [] (str "type err")
  else if cmd == [str "npm", str "test"] then .completed 1 [] (str "test err")
  else .completed 0 [] []

/-- Same project as `envReadme`, with a core change and all three stages
failing. -/
def envAllFail : Env :=
  { envReadme with run := envAllFailRun }

/-- Subprocess oracle: one changed source file, every tool passes. -/
def envBadPkgRun : List Str → RunOutcome := fun cmd =>
  if cmd == GIT_DIFF_CMD then .completed 0 (str "src/a.ts\n") []
  else .completed 0 [] []

/-- A project whose `package.json` exists but cannot be parsed
(`pkgScripts = none`). -/
def envBadPkg : Env :=
  { packageJsonExists := true, gitDirExists := true, pnpmLockExists := false,
    yarnLockExists := false, bunLockbExists := false, eslintBinExists := false,
    pkgScripts := none, run := envBadPkgRun }

/-- A project with a `pnpm-lock.yaml`. -/
def envPnpm : Env := { envNoGit with pnpmLockExists := true }

end QualityGate

namespace CommandGuard

/-- Python `str.lower`, applied before matching. -/
def lower (s : Str) : Str := s.map Char.toLower

/-- The remainder of a string after the first occurrence of a pattern, or
`none` when the pattern does not occur. -/
def dropAfter : Str → Str → Option Str
  | [], pat => if pat.isEmpty then some [] else none
  | c :: cs, pat =>
    if startswith (c :: cs) pat then some ((c :: cs).drop pat.length)
    else dropAfter cs pat

/-- A pattern made of literal parts matches when every part occurs in the
string, in order (the shape of patterns such as a download command followed
by a pipe into a shell). -/
def matchParts (s : Str) : List Str → Bool
  | [] => true
  | p :: ps =>
    match dropAfter s p with
    | none => false
    | some rest => matchParts rest ps

/-- Modelled from the spec: a Command Guard rule is a `(pattern, message)`
pair; the pattern is matched case-insensitively anywhere in the command
string. The Command Guard hook script itself is not present under `src/`
(only the Quality Gate hook survives in the backup directory), so the rule
shape follows the spec's data model. -/
structure Rule where
  parts : List Str
  message : Str
deriving DecidableEq

/-- Modelled from the spec: the ordered hard-block rule list — irreversible
filesystem destruction, raw block-device access, host-state disruption,
privilege escalation, insecure permission grants, and pipe-to-interpreter
remote execution. The exact message texts are the model's own; the spec
fixes only the categories and example patterns. -/
def HARD_BLOCK_RULES : List Rule :=
  [⟨[str "rm -rf /"], str "Blocked: recursive force-delete of the filesystem root"⟩,
   ⟨[str "rm -rf ~"], str "Blocked: recursive force-delete of the home directory"⟩,
   ⟨[str "mkfs"], str "Blocked: filesystem format command"⟩,
   ⟨[str "dd if="], str "Blocked: raw block-device read or write"⟩,
   ⟨[str "shutdown"], str "Blocked: system shutdown command"⟩,
   ⟨[str "reboot"], str "Blocked: system reboot command"⟩,
   ⟨[str "sudo "], str "Blocked: privilege escalation via sudo"⟩,
   ⟨[str "chmod 777"], str "Blocked: world-writable permission change"⟩,
   ⟨[str "curl ", str "| sh"], str "Blocked: piping a curl download into a shell"⟩,
   ⟨[str "curl ", str "| bash"], str "Blocked: piping a curl download into bash"⟩,
   ⟨[str "wget ", str "| sh"], str "Blocked: piping a wget download into a shell"⟩,
   ⟨[str "wget ", str "| bash"], str "Blocked: piping a wget download into bash"⟩]

/-- Modelled from the spec: the secret-access rule list — reading credential
material (environment files, secrets directories, private keys,
certificate or key files) with a text-viewing command. -/
def SECRET_ACCESS_RULES : List Rule :=
  [⟨[str "cat ", str ".env"], str "Blocked: reading an environment file"⟩,
   ⟨[str "cat ", str "secrets"], str "Blocked: reading a secrets directory"⟩,
   ⟨[str "cat ", str "id_rsa"], str "Blocked: reading a private key"⟩,
   ⟨[str "cat ", str ".pem"], str "Blocked: reading a certificate or key file"⟩]

/-- The full ordered rule table: hard-block rules first, then secret-access
rules. -/
def ALL_RULES : List Rule := HARD_BLOCK_RULES ++ SECRET_ACCESS_RULES

/-- A rule matches a command when its pattern parts occur, in order, in the
lowercased command string (case-insensitive matching). -/
def matchesRule (cmd : Str) (r : Rule) : Bool := matchParts (lower cmd) r.parts

/-- Modelled from the spec: the guard's evaluation — the list of all rule
messages whose pattern matches the command, collected in rule-table order. -/
def evaluate_command (cmd : Str) : List Str :=
  ALL_RULES.filterMap (fun r => if matchesRule cmd r then some r.message else none)

/-- The Decision record of the protocol: allowed iff no diagnostics. -/
structure Decision where
  allowed : Bool
  diagnostics : List Str
deriving DecidableEq

/-- The Command Guard's Decision for a command string. -/
def guardDecision (cmd : Str) : Decision :=
  ⟨(evaluate_command cmd).isEmpty, evaluate_command cmd⟩

end CommandGuard

namespace QualityGate

/-- `aggregate` passes the error list through unchanged. -/
lemma aggregate_errors (errs : List Str) (tr : List (List Str)) :
    (aggregate errs tr).errors = errs := by
  unfold aggregate; split <;> rfl

/-- `aggregate` passes the subprocess trace through unchanged. -/
lemma aggregate_trace (errs : List Str) (tr : List (List Str)) :
    (aggregate errs tr).trace = tr := by
  unfold aggregate; split <;> rfl

/-- `aggregate` exits 2 exactly when some error was collected. -/
lemma aggregate_exit2_iff (errs : List Str) (tr : List (List Str)) :
    (aggregate errs tr).exitCode = 2 ↔ errs ≠ [] := by
  unfold aggregate; split <;> simp_all

/-- `aggregate` exits 0 exactly when no error was collected. -/
lemma aggregate_exit0_iff (errs : List Str) (tr : List (List Str)) :
    (aggregate errs tr).exitCode = 0 ↔ errs = [] := by
  unfold aggregate; split <;> simp_all

/-- With collected errors, `aggregate` prints the blocked-stop report. -/
lemma aggregate_stderr_of_ne (errs : List Str) (tr : List (List Str)) (h : errs ≠ []) :
    (aggregate errs tr).stderrLines = renderStderr errs := by
  unfold aggregate; split <;> simp_all

/-- Without errors, `aggregate` prints nothing. -/
lemma aggregate_stderr_of_nil (tr : List (List Str)) :
    (aggregate [] tr).stderrLines = [] := by
  unfold aggregate; simp

/-- Every normal result of `main` is an early allow or an aggregation. -/
lemma main_ok_shape (env : Env) (res : MainResult) (h : main env = .ok res) :
    res = ⟨0, [], [], []⟩ ∨ res = ⟨0, [], [], [GIT_DIFF_CMD]⟩ ∨
    ∃ errs tr, res = aggregate errs tr := by
  unfold main at h
  split at h
  · exact Or.inl (by injection h with h2; exact h2.symm)
  · split at h
    · exact Or.inl (by injection h with h2; exact h2.symm)
    · split at h
      · exact absurd h (by simp)
      · simp only [] at h
        split at h
        · exact Or.inr (Or.inl (by injection h with h2; exact h2.symm))
        · split at h
          · exact absurd h (by simp)
          · split at h
            · exact absurd h (by simp)
            · split at h
              · exact absurd h (by simp)
              · exact Or.inr (Or.inr ⟨_, _, by injection h with h2; exact h2.symm⟩)

/-- `has_script` is false whenever `package.json` is absent. -/
lemma has_script_of_noPkg (env : Env) (s : Str) (hp : env.packageJsonExists = false) :
    has_script env s = false := by
  unfold has_script; simp [hp]

/-- `has_script` is false whenever `package.json` cannot be read or parsed. -/
lemma has_script_of_badPkg (env : Env) (s : Str) (hn : env.pkgScripts = none) :
    has_script env s = false := by
  unfold has_script; split
  · rfl
  · rw [hn]

/-- Without a `package.json`, `main` allows immediately with no subprocess. -/
lemma main_of_noPkg (env : Env) (hp : env.packageJsonExists = false) :
    main env = .ok ⟨0, [], [], []⟩ := by
  unfold main; simp [hp]

/-- Without a `.git` directory, `main` allows immediately with no
subprocess. -/
lemma main_of_noGit (env : Env) (hp : env.packageJsonExists = true)
    (hg : env.gitDirExists = false) :
    main env = .ok ⟨0, [], [], []⟩ := by
  unfold main; simp [hp, hg]

/-- With no changed files, `main` allows after only the `git diff` call. -/
lemma main_of_noChanges (env : Env) (rc : Int) (out err : Str)
    (hp : env.packageJsonExists = true) (hg : env.gitDirExists = true)
    (hr : env.run GIT_DIFF_CMD = .completed rc out err)
    (hch : (parseChanged out).isEmpty = true) :
    main env = .ok ⟨0, [], [], [GIT_DIFF_CMD]⟩ := by
  unfold main; simp [hp, hg, hr, runResult, hch]

/-- A normal `main` run that reaches the pipeline decomposes into the three
stage results, aggregated in stage order. -/
lemma main_ok_pipeline (env : Env) (res : MainResult) (h : main env = .ok res)
    (hp : env.packageJsonExists = true) (hg : env.gitDirExists = true)
    (hch : (changedFiles env).isEmpty = false) :
    ∃ lintErrs lintTrace tcErrs tcTrace testErrs testTrace,
      lintStage env (pmOf env) = .ok (lintErrs, lintTrace) ∧
      typecheckStage env (pmOf env) = .ok (tcErrs, tcTrace) ∧
      testStage env (pmOf env) (changedFiles env) = .ok (testErrs, testTrace) ∧
      res = aggregate (lintErrs ++ tcErrs ++ testErrs)
        ([GIT_DIFF_CMD] ++ lintTrace ++ tcTrace ++ testTrace) := by
  unfold main at h
  simp only [hp, hg] at h
  rcases hr : env.run GIT_DIFF_CMD with ⟨rc, out, err⟩ | _ | _ <;> rw [hr] at h
  · simp only [runResult] at h
    have hcf : changedFiles env = parseChanged out := by
      unfold changedFiles; rw [hr]
    rw [hcf] at hch
    rw [hch] at h
    simp only [if_false, Bool.false_eq_true] at h
    rcases hl : lintStage env ((detect_pm env).headD []) with e | ⟨lintErrs, lintTrace⟩ <;>
      rw [hl] at h
    · exact absurd h (by simp)
    · rcases ht : typecheckStage env ((detect_pm env).headD []) with e | ⟨tcErrs, tcTrace⟩ <;>
        rw [ht] at h
      · exact absurd h (by simp)
      · rcases hs : testStage env ((detect_pm env).headD []) (parseChanged out) with
          e | ⟨testErrs, testTrace⟩ <;> rw [hs] at h
        · exact absurd h (by simp)
        · refine ⟨lintErrs, lintTrace, tcErrs, tcTrace, testErrs, testTrace, ?_, ?_, ?_, ?_⟩
          · rw [pmOf]; exact hl
          · rw [pmOf]; exact ht
          · rw [pmOf, hcf]; exact hs
          · injection h with h2; exact h2.symm
  · exact absurd h (by simp [runResult])
  · exact absurd h (by simp [runResult])

/-- Every command the lint block invokes has three words. -/
lemma lintStage_trace_len (env : Env) (pm : Str) (errs : List Str)
    (tr : List (List Str)) (h : lintStage env pm = .ok (errs, tr)) :
    ∀ c ∈ tr, c.length = 3 := by
  unfold lintStage at h
  split at h
  · split at h
    · exact absurd h (by simp)
    · injection h with h2
      rw [Prod.mk.injEq] at h2
      rw [← h2.2]
      intro c hc
      simp only [List.mem_singleton] at hc
      subst hc; rfl
  · split at h
    · split at h
      · exact absurd h (by simp)
      · injection h with h2
        rw [Prod.mk.injEq] at h2
        rw [← h2.2]
        intro c hc
        simp only [List.mem_singleton] at hc
        subst hc; rfl
    · injection h with h2
      rw [Prod.mk.injEq] at h2
      rw [← h2.2]
      intro c hc
      exact absurd hc (by simp)

/-- The typecheck block always invokes exactly its one command. -/
lemma typecheckStage_trace (env : Env) (pm : Str) (errs : List Str)
    (tr : List (List Str)) (h : typecheckStage env pm = .ok (errs, tr)) :
    tr = [typecheckCmd env pm] := by
  unfold typecheckStage at h
  split at h
  · exact absurd h (by simp)
  · injection h with h2
    rw [Prod.mk.injEq] at h2
    exact h2.2.symm

/-- Both typecheck command forms have three words. -/
lemma typecheckCmd_len (env : Env) (pm : Str) : (typecheckCmd env pm).length = 3 := by
  unfold typecheckCmd; split <;> rfl

/-- The test command appears in the test block's trace exactly when the gate
(core-path change and declared test script) is satisfied. -/
lemma testStage_trace_iff (env : Env) (pm : Str) (changed : List Str)
    (errs : List Str) (tr : List (List Str))
    (h : testStage env pm changed = .ok (errs, tr)) :
    ([pm, str "test"] ∈ tr ↔
      (should_test changed = true ∧ has_script env (str "test") = true)) := by
  unfold testStage at h
  split at h
  · rename_i hgate
    rw [Bool.and_eq_true] at hgate
    split at h
    · exact absurd h (by simp)
    · injection h with h2
      rw [Prod.mk.injEq] at h2
      rw [← h2.2]
      simp [hgate]
  · rename_i hgate
    rw [Bool.and_eq_true] at hgate
    injection h with h2
    rw [Prod.mk.injEq] at h2
    rw [← h2.2]
    simp only [List.not_mem_nil, false_iff]
    intro hc
    exact hgate ⟨hc.1, hc.2⟩

/-- Dropping whitespace from a run of `x` characters changes nothing. -/
lemma dropWhile_replicate_x (n : Nat) :
    (List.replicate n 'x').dropWhile Char.isWhitespace = List.replicate n 'x' := by
  cases n with
  | zero => rfl
  | succ m =>
    rw [List.replicate_succ, List.dropWhile_cons]
    rw [if_neg (by decide)]

/-- Stripping a run of `x` characters changes nothing. -/
lemma strip_replicate_x (n : Nat) :
    strip (List.replicate n 'x') = List.replicate n 'x' := by
  unfold strip
  rw [dropWhile_replicate_x, List.reverse_replicate, dropWhile_replicate_x,
    List.reverse_replicate]

end QualityGate

namespace CommandGuard

/-- `Char.toLower` is idempotent. -/
lemma toLower_idem (c : Char) : Char.toLower (Char.toLower c) = Char.toLower c := by
  unfold Char.toLower
  simp only []
  by_cases h : c.toNat ≥ 65 ∧ c.toNat ≤ 90
  · rw [if_pos h]
    have hv : (c.toNat + 32).isValidChar := by
      rcases h with ⟨h1, h2⟩
      left
      omega
    have ht : (Char.ofNat (c.toNat + 32)).toNat = c.toNat + 32 := by
      unfold Char.ofNat
      rw [dif_pos hv]
      rfl
    rw [if_neg]
    rw [ht]
    omega
  · rw [if_neg h, if_neg h]

/-- Lowercasing is idempotent on strings. -/
lemma lower_lower (s : Str) : lower (lower s) = lower s := by
  induction s with
  | nil => rfl
  | cons c cs ih =>
    unfold lower at *
    simp only [List.map_cons, List.cons.injEq]
    exact ⟨toLower_idem c, ih⟩

/-- Rule matching is insensitive to the case of the command. -/
lemma matchesRule_lower (cmd : Str) (r : Rule) :
    matchesRule (lower cmd) r = matchesRule cmd r := by
  unfold matchesRule
  rw [lower_lower]

/-- The guard's evaluation is insensitive to the case of the command. -/
lemma evaluate_command_lower (cmd : Str) :
    evaluate_command (lower cmd) = evaluate_command cmd := by
  unfold evaluate_command
  have hf : (fun r : Rule => if matchesRule (lower cmd) r then some r.message else none)
      = (fun r : Rule => if matchesRule cmd r then some r.message else none) := by
    funext r
    rw [matchesRule_lower]
  rw [hf]

/-- Every matching rule contributes its message to the evaluation. -/
lemma mem_evaluate_of_match (cmd : Str) (r : Rule) (hr : r ∈ ALL_RULES)
    (hm : matchesRule cmd r = true) : r.message ∈ evaluate_command cmd := by
  unfold evaluate_command
  rw [List.mem_filterMap]
  exact ⟨r, hr, by rw [hm]; rfl⟩

/-- A command matching no rule evaluates to no diagnostics. -/
lemma evaluate_nil_of_no_match (cmd : Str)
    (h : ∀ r ∈ ALL_RULES, matchesRule cmd r = false) : evaluate_command cmd = [] := by
  unfold evaluate_command
  rw [List.filterMap_eq_nil_iff]
  intro r hr
  rw [h r hr]
  rfl

end CommandGuard

namespace QualityGate

/-- Claim C1. The claim says a stage subprocess that exceeds its 900-second
timeout or cannot be started is recorded as that stage's failure and the
orchestrator proceeds to aggregation, never terminating with an unhandled
error. The code has no try/except around its `run` calls, so
`subprocess.TimeoutExpired` and `FileNotFoundError` propagate uncaught out
of `main`: on the failing inputs below the orchestrator terminates with an
unhandled exception (`Except.error`) instead of a recorded failure and a
normal block Decision. -/
theorem stage_timeout_or_startfail_uncaught :
    main envLintTimeout = .error .timeoutExpired ∧
    main envLintStartFail = .error .fileNotFoundError := ⟨rfl, rfl⟩

/-- Claim C2. The claim says any unexpected internal error while determining
applicability degrades to an allow Decision (exit 0) with a diagnostic, and
nothing propagates uncaught. In the code, `main` has no exception handler:
when the `git diff` call of DetermineApplicability raises (here
`TimeoutExpired` on its 30-second timeout), the exception propagates
uncaught through `raise SystemExit(main())`, so the host sees a traceback
and exit status 1, not an allow Decision. -/
theorem applicability_fault_uncaught :
    main envGitTimeout = .error .timeoutExpired := rfl

/-- Claim C3 counterexample. In a project with no declared typecheck script
and no installed type-checker (`envNoTools`), the claim says the typecheck
stage is silently skipped and never recorded as a failure; the code instead
always invokes the fallback `npx tsc --noEmit`, whose nonzero exit is
recorded as `typecheck failed`, so the run blocks. -/
theorem typecheck_tool_absent_records_failure :
    has_script envNoTools (str "typecheck") = false ∧
    envNoTools.eslintBinExists = false ∧
    main envNoTools = .ok ⟨2, [str "typecheck failed", str "tsc: not found"],
      renderStderr [str "typecheck failed", str "tsc: not found"],
      [GIT_DIFF_CMD, [str "npx", str "tsc", str "--noEmit"]]⟩ ∧
    str "typecheck failed" ∈ [str "typecheck failed", str "tsc: not found"] :=
  ⟨rfl, rfl, rfl, by decide⟩

/-- Claim C3 as amended: the tooling-absence rule holds for the lint stage —
with no declared lint script and no local eslint binary the lint block is
silently skipped (no subprocess, no failure) — but not for the typecheck
stage, which is never skipped: without a declared typecheck script the
orchestrator always invokes the fallback `npx tsc --noEmit`, and a nonzero
exit of that invocation is recorded as a typecheck failure. -/
theorem lint_skipped_typecheck_fallback_invoked :
    (∀ env pm, has_script env (str "lint") = false → env.eslintBinExists = false →
      lintStage env pm = .ok ([], [])) ∧
    (∀ env res, main env = .ok res → env.packageJsonExists = true →
      env.gitDirExists = true → (changedFiles env).isEmpty = false →
      has_script env (str "typecheck") = false →
      [str "npx", str "tsc", str "--noEmit"] ∈ res.trace) := by
  constructor
  · intro env pm h1 h2
    unfold lintStage
    rw [h1]
    simp [h2]
  · intro env res h hp hg hch hts
    obtain ⟨le, lt, te, tt, se, st2, hl, htc, hsx, hres⟩ :=
      main_ok_pipeline env res h hp hg hch
    subst hres
    rw [aggregate_trace]
    have htt : tt = [typecheckCmd env (pmOf env)] :=
      typecheckStage_trace env (pmOf env) te tt htc
    have hcmd : typecheckCmd env (pmOf env) = [str "npx", str "tsc", str "--noEmit"] := by
      unfold typecheckCmd
      rw [hts]
      simp
    subst htt
    rw [hcmd]
    simp [List.mem_append]

/-- Witness for the amended C3 at a concrete project: the lint block of
`envNoTools` is skipped, and the fallback type-checker command appears in
its trace. -/
theorem lint_skipped_typecheck_fallback_invoked_witness :
    lintStage envNoTools (str "npm") = .ok ([], []) ∧
    [str "npx", str "tsc", str "--noEmit"] ∈
      (⟨2, [str "typecheck failed", str "tsc: not found"],
        renderStderr [str "typecheck failed", str "tsc: not found"],
        [GIT_DIFF_CMD, [str "npx", str "tsc", str "--noEmit"]]⟩ : MainResult).trace :=
  ⟨lint_skipped_typecheck_fallback_invoked.1 envNoTools (str "npm") rfl rfl,
   lint_skipped_typecheck_fallback_invoked.2 envNoTools _ rfl rfl rfl rfl rfl⟩

/-- Claim C4: on every normal run, the test command is invoked if and only if
a test script is declared and some changed file starts with a core prefix;
in particular, with only `README.md` changed the test stage is skipped while
lint and typecheck still run, and with `src/api/handler.ts` changed and a
test script declared the test stage runs. -/
theorem test_stage_gating :
    (∀ env res, main env = .ok res → env.gitDirExists = true →
      ([pmOf env, str "test"] ∈ res.trace ↔
        has_script env (str "test") = true ∧ should_test (changedFiles env) = true)) ∧
    main envReadme = .ok ⟨0, [], [],
      [GIT_DIFF_CMD, [str "npm", str "run", str "lint"],
       [str "npm", str "run", str "typecheck"]]⟩ ∧
    main envHandler = .ok ⟨0, [], [],
      [GIT_DIFF_CMD, [str "npm", str "run", str "lint"],
       [str "npm", str "run", str "typecheck"], [str "npm", str "test"]]⟩ := by
  refine ⟨?_, rfl, rfl⟩
  intro env res h hg
  by_cases hp : env.packageJsonExists = true
  · by_cases hch : (changedFiles env).isEmpty = false
    · obtain ⟨le, lt, te, tt, se, st2, hl, htc, hts, hres⟩ :=
        main_ok_pipeline env res h hp hg hch
      subst hres
      rw [aggregate_trace]
      constructor
      · intro hmem
        rw [List.mem_append] at hmem
        rcases hmem with hmem | hmem
        · rw [List.mem_append] at hmem
          rcases hmem with hmem | hmem
          · rw [List.mem_append] at hmem
            rcases hmem with hmem | hmem
            · simp only [List.mem_singleton] at hmem
              have h3 := congrArg List.length hmem
              simp [GIT_DIFF_CMD, str] at h3
            · have h3 := lintStage_trace_len env (pmOf env) le lt hl _ hmem
              simp at h3
          · rw [typecheckStage_trace env (pmOf env) te tt htc] at hmem
            simp only [List.mem_singleton] at hmem
            have h3 := congrArg List.length hmem
            rw [typecheckCmd_len] at h3
            simp at h3
        · have h3 := (testStage_trace_iff env (pmOf env) (changedFiles env) se st2 hts).mp hmem
          exact ⟨h3.2, h3.1⟩
      · intro hrhs
        have hm := (testStage_trace_iff env (pmOf env) (changedFiles env) se st2 hts).mpr
          ⟨hrhs.2, hrhs.1⟩
        rw [List.mem_append]
        exact Or.inr hm
    · rw [Bool.not_eq_false] at hch
      rcases hr : env.run GIT_DIFF_CMD with ⟨rc, out, err⟩ | _ | _
      · have hcf : changedFiles env = parseChanged out := by
          unfold changedFiles; rw [hr]
        have hmain := main_of_noChanges env rc out err hp hg hr (by rw [← hcf]; exact hch)
        rw [hmain] at h
        injection h with h2
        rw [← h2]
        have hempty : changedFiles env = [] := by
          rw [List.isEmpty_iff] at hch; exact hch
        constructor
        · intro hmem
          simp only [List.mem_singleton] at hmem
          have h3 := congrArg List.length hmem
          simp [GIT_DIFF_CMD, str] at h3
        · intro hrhs
          rw [hempty] at hrhs
          exact absurd hrhs.2 (by decide)
      · unfold main at h
        simp [hp, hg, hr, runResult] at h
      · unfold main at h
        simp [hp, hg, hr, runResult] at h
  · rw [Bool.not_eq_true] at hp
    have hmain := main_of_noPkg env hp
    rw [hmain] at h
    injection h with h2
    rw [← h2]
    constructor
    · intro hmem
      exact absurd hmem (by simp)
    · intro hrhs
      rw [has_script_of_noPkg env (str "test") hp] at hrhs
      exact absurd hrhs.1 (by decide)

/-- Witness for C4 at the documentation-only project: the gating equivalence
instantiated at `envReadme` and its concrete result. -/
theorem test_stage_gating_witness :
    [pmOf envReadme, str "test"] ∈
      (⟨0, [], [],
        [GIT_DIFF_CMD, [str "npm", str "run", str "lint"],
         [str "npm", str "run", str "typecheck"]]⟩ : MainResult).trace ↔
      has_script envReadme (str "test") = true ∧
        should_test (changedFiles envReadme) = true :=
  test_stage_gating.1 envReadme _ rfl rfl

/-- Claim C5: on every normal run of the orchestrator, the Decision is block
(exit status 2) exactly when at least one stage recorded a failure, and
allow (exit status 0) exactly when none did. -/
theorem block_iff_stage_failure (env : Env) (res : MainResult)
    (h : main env = .ok res) :
    (res.exitCode = 2 ↔ res.errors ≠ []) ∧ (res.exitCode = 0 ↔ res.errors = []) := by
  rcases main_ok_shape env res h with h1 | h1 | ⟨errs, tr, h1⟩ <;> subst h1
  · simp
  · simp
  · rw [aggregate_exit2_iff, aggregate_exit0_iff, aggregate_errors]
    exact ⟨Iff.rfl, Iff.rfl⟩

/-- Witness for C5 at the failing-lint project. -/
theorem block_iff_stage_failure_witness :
    ((⟨2, [str "lint failed", str "3 problems"],
       renderStderr [str "lint failed", str "3 problems"],
       [GIT_DIFF_CMD, [str "npm", str "run", str "lint"],
        [str "npx", str "tsc", str "--noEmit"]]⟩ : MainResult).exitCode = 2 ↔
      (⟨2, [str "lint failed", str "3 problems"],
       renderStderr [str "lint failed", str "3 problems"],
       [GIT_DIFF_CMD, [str "npm", str "run", str "lint"],
        [str "npx", str "tsc", str "--noEmit"]]⟩ : MainResult).errors ≠ []) ∧
    ((⟨2, [str "lint failed", str "3 problems"],
       renderStderr [str "lint failed", str "3 problems"],
       [GIT_DIFF_CMD, [str "npm", str "run", str "lint"],
        [str "npx", str "tsc", str "--noEmit"]]⟩ : MainResult).exitCode = 0 ↔
      (⟨2, [str "lint failed", str "3 problems"],
       renderStderr [str "lint failed", str "3 problems"],
       [GIT_DIFF_CMD, [str "npm", str "run", str "lint"],
        [str "npx", str "tsc", str "--noEmit"]]⟩ : MainResult).errors = []) :=
  block_iff_stage_failure envLintFail _ rfl

end QualityGate

namespace QualityGate

/-- Claim C6: on every normal run, when no stage failed the orchestrator
allows silently with no diagnostics; when some stage failed it blocks and
prints all collected failure labels and excerpts, in collection (stage)
order, wrapped in the fixed blocked-stop header and fix-and-retry footer.
Concretely: a lint stage exiting 1 with stderr `3 problems` blocks with
diagnostics containing `lint failed` and `3 problems`; the stderr excerpt
is truncated to its first 2000 characters; and with all three stages
failing the labels appear in lint, typecheck, test order. -/
theorem block_report_contents :
    (∀ env res, main env = .ok res → res.errors = [] →
      res.exitCode = 0 ∧ res.stderrLines = []) ∧
    (∀ env res, main env = .ok res → res.errors ≠ [] →
      res.exitCode = 2 ∧ res.stderrLines = renderStderr res.errors) ∧
    main envLintFail = .ok ⟨2, [str "lint failed", str "3 problems"],
      renderStderr [str "lint failed", str "3 problems"],
      [GIT_DIFF_CMD, [str "npm", str "run", str "lint"],
       [str "npx", str "tsc", str "--noEmit"]]⟩ ∧
    stageErrors (str "lint failed") 1 (List.replicate 2005 'x')
      = [str "lint failed", List.replicate 2000 'x'] ∧
    main envAllFail = .ok ⟨2,
      [str "lint failed", str "lint err", str "typecheck failed", str "type err",
       str "tests failed", str "test err"],
      renderStderr [str "lint failed", str "lint err", str "typecheck failed",
        str "type err", str "tests failed", str "test err"],
      [GIT_DIFF_CMD, [str "npm", str "run", str "lint"],
       [str "npm", str "run", str "typecheck"], [str "npm", str "test"]]⟩ := by
  refine ⟨?_, ?_, rfl, ?_, rfl⟩
  · intro env res h he
    rcases main_ok_shape env res h with h1 | h1 | ⟨errs, tr, h1⟩ <;> subst h1
    · exact ⟨rfl, rfl⟩
    · exact ⟨rfl, rfl⟩
    · rw [aggregate_errors] at he
      subst he
      exact ⟨(aggregate_exit0_iff [] tr).mpr rfl, aggregate_stderr_of_nil tr⟩
  · intro env res h he
    rcases main_ok_shape env res h with h1 | h1 | ⟨errs, tr, h1⟩ <;> subst h1
    · exact absurd rfl he
    · exact absurd rfl he
    · rw [aggregate_errors] at he ⊢
      exact ⟨(aggregate_exit2_iff errs tr).mpr he, aggregate_stderr_of_ne errs tr he⟩
  · unfold stageErrors
    rw [if_pos (by norm_num : (1 : Int) ≠ 0)]
    rw [strip_replicate_x]
    rw [if_neg (by simp)]
    rw [List.take_replicate]
    norm_num

/-- Witness for C6 at the failing-lint project: the block branch of the
general report property, instantiated. -/
theorem block_report_contents_witness :
    (⟨2, [str "lint failed", str "3 problems"],
      renderStderr [str "lint failed", str "3 problems"],
      [GIT_DIFF_CMD, [str "npm", str "run", str "lint"],
       [str "npx", str "tsc", str "--noEmit"]]⟩ : MainResult).exitCode = 2 ∧
    (⟨2, [str "lint failed", str "3 problems"],
      renderStderr [str "lint failed", str "3 problems"],
      [GIT_DIFF_CMD, [str "npm", str "run", str "lint"],
       [str "npx", str "tsc", str "--noEmit"]]⟩ : MainResult).stderrLines =
      renderStderr (⟨2, [str "lint failed", str "3 problems"],
        renderStderr [str "lint failed", str "3 problems"],
        [GIT_DIFF_CMD, [str "npm", str "run", str "lint"],
         [str "npx", str "tsc", str "--noEmit"]]⟩ : MainResult).errors :=
  block_report_contents.2.1 envLintFail _ rfl (by decide)

/-- Claim C7 counterexample. With no changed files since the last commit, the
Decision is allow, but the claim's "zero subprocess invocations" is false:
the orchestrator has already invoked one subprocess, `git diff --name-only`,
to determine that nothing changed — its trace has length one, not zero. -/
theorem no_changes_still_invokes_git_diff :
    main envNoChange = .ok ⟨0, [], [], [GIT_DIFF_CMD]⟩ ∧
    (⟨0, [], [], [GIT_DIFF_CMD]⟩ : MainResult).trace.length = 1 := ⟨rfl, rfl⟩

/-- Claim C7 as amended: with no `package.json`, or no `.git` directory, the
orchestrator immediately allows with zero subprocess invocations; with no
changed files it allows after exactly the one change-detection `git diff`
subprocess, with zero verification-stage subprocess invocations. -/
theorem applicability_short_circuits :
    (∀ env, env.packageJsonExists = false → main env = .ok ⟨0, [], [], []⟩) ∧
    (∀ env, env.packageJsonExists = true → env.gitDirExists = false →
      main env = .ok ⟨0, [], [], []⟩) ∧
    (∀ env rc out err, env.packageJsonExists = true → env.gitDirExists = true →
      env.run GIT_DIFF_CMD = .completed rc out err →
      (parseChanged out).isEmpty = true →
      main env = .ok ⟨0, [], [], [GIT_DIFF_CMD]⟩) :=
  ⟨main_of_noPkg, main_of_noGit,
   fun env rc out err hp hg hr hch => main_of_noChanges env rc out err hp hg hr hch⟩

/-- Witness for the amended C7 at concrete projects. -/
theorem applicability_short_circuits_witness :
    main envNoPkg = .ok ⟨0, [], [], []⟩ ∧
    main envNoGit = .ok ⟨0, [], [], []⟩ ∧
    main envNoChange = .ok ⟨0, [], [], [GIT_DIFF_CMD]⟩ :=
  ⟨applicability_short_circuits.1 envNoPkg rfl,
   applicability_short_circuits.2.1 envNoGit rfl rfl,
   applicability_short_circuits.2.2 envNoChange 0 [] [] rfl rfl rfl rfl⟩

/-- Claim C8: the package manager is selected by lockfile presence in the
fixed precedence order pnpm-lock.yaml, yarn.lock, bun.lockb, with npm as
the default when none is present, and exactly one manager is selected for
every project. -/
theorem detect_pm_precedence (env : Env) :
    (env.pnpmLockExists = true → detect_pm env = [str "pnpm"]) ∧
    (env.pnpmLockExists = false → env.yarnLockExists = true →
      detect_pm env = [str "yarn"]) ∧
    (env.pnpmLockExists = false → env.yarnLockExists = false →
      env.bunLockbExists = true → detect_pm env = [str "bun"]) ∧
    (env.pnpmLockExists = false → env.yarnLockExists = false →
      env.bunLockbExists = false → detect_pm env = [str "npm"]) ∧
    (detect_pm env).length = 1 := by
  refine ⟨?_, ?_, ?_, ?_, ?_⟩
  · intro h1
    unfold detect_pm
    rw [h1]
    simp
  · intro h1 h2
    unfold detect_pm
    rw [h1, h2]
    simp
  · intro h1 h2 h3
    unfold detect_pm
    rw [h1, h2, h3]
    simp
  · intro h1 h2 h3
    unfold detect_pm
    rw [h1, h2, h3]
    simp
  · unfold detect_pm
    split
    · rfl
    · split
      · rfl
      · split
        · rfl
        · rfl

/-- Witness for C8 at concrete projects: a pnpm lockfile selects pnpm, and a
project with no recognized lockfile defaults to npm. -/
theorem detect_pm_precedence_witness :
    detect_pm envPnpm = [str "pnpm"] ∧ detect_pm envNoGit = [str "npm"] :=
  ⟨(detect_pm_precedence envPnpm).1 rfl,
   (detect_pm_precedence envNoGit).2.2.2.1 rfl rfl rfl⟩

/-- Claim C10: when `package.json` exists but cannot be read or parsed,
`has_script` is false for every script name, so the orchestrator treats the
project as declaring no scripts: on the concrete project `envBadPkg` the
lint block is skipped (no lint command in the trace), typecheck falls back
to the direct `npx tsc --noEmit` invocation, and the run completes normally
with an allow Decision instead of raising. -/
theorem bad_package_json_no_scripts :
    (∀ env s, env.pkgScripts = none → has_script env s = false) ∧
    main envBadPkg = .ok ⟨0, [], [],
      [GIT_DIFF_CMD, [str "npx", str "tsc", str "--noEmit"]]⟩ :=
  ⟨fun env s hn => has_script_of_badPkg env s hn, rfl⟩

/-- Witness for C10: the unparseable `package.json` of `envBadPkg` declares
no lint script. -/
theorem bad_package_json_no_scripts_witness :
    has_script envBadPkg (str "lint") = false :=
  bad_package_json_no_scripts.1 envBadPkg (str "lint") rfl

end QualityGate

namespace CommandGuard

/-- Claim C9: every command matched by a rule of the table is blocked with
that rule's message among the diagnostics; every command matching no rule is
allowed with empty diagnostics; matching is case-insensitive, both as a
general property of lowercasing and concretely, `SUDO ls` evaluating
identically to `sudo ls`. The claim's example commands all block with their
corresponding messages, and `git status` is allowed with no diagnostics. -/
theorem hard_block_and_allow :
    (∀ cmd r, r ∈ ALL_RULES → matchesRule cmd r = true →
      r.message ∈ evaluate_command cmd) ∧
    (∀ cmd, (∀ r ∈ ALL_RULES, matchesRule cmd r = false) →
      evaluate_command cmd = []) ∧
    (∀ cmd, evaluate_command (lower cmd) = evaluate_command cmd) ∧
    str "Blocked: recursive force-delete of the filesystem root" ∈
      evaluate_command (str "rm -rf /") ∧
    str "Blocked: recursive force-delete of the home directory" ∈
      evaluate_command (str "rm -rf ~") ∧
    str "Blocked: system shutdown command" ∈ evaluate_command (str "shutdown") ∧
    str "Blocked: privilege escalation via sudo" ∈ evaluate_command (str "sudo ls") ∧
    str "Blocked: piping a curl download into a shell" ∈
      evaluate_command (str "curl http://x | sh") ∧
    evaluate_command (str "SUDO ls") = evaluate_command (str "sudo ls") ∧
    (guardDecision (str "SUDO ls")).allowed = false ∧
    evaluate_command (str "git status") = [] ∧
    guardDecision (str "git status") = ⟨true, []⟩ :=
  ⟨mem_evaluate_of_match, evaluate_nil_of_no_match, evaluate_command_lower,
   by decide, by decide, by decide, by decide, by decide, by decide, by decide,
   by decide, by decide⟩

/-- Witness for C9: the sudo rule of the table matches a concrete command and
its message is among the guard's diagnostics. -/
theorem hard_block_and_allow_witness :
    (⟨[str "sudo "], str "Blocked: privilege escalation via sudo"⟩ : Rule).message ∈
      evaluate_command (str "sudo rm x") :=
  hard_block_and_allow.1 (str "sudo rm x")
    ⟨[str "sudo "], str "Blocked: privilege escalation via sudo"⟩
    (by decide) (by decide)

end CommandGuard
